import Mathlib

/-!
Verification of the torchft coordinator (src/src/coordinator.rs).

The file shallowly embeds the coordinator: the peer registry (a Rust
HashMap from u64 rank to NodeInfo, modelled as an association list with
HashMap insert semantics), the tick cycle over the raft RawNode (the
RawNode itself is an external library, modelled at its interface boundary
as the Ready / LightReady bundles it hands the coordinator), the outbound
message transport (handle_messages with an explicit network oracle), the
bootstrap loop (with explicit fuel, since Rust's while loop has no
syntactic termination witness), and the two RPC handlers of the
CoordinatorService trait implementation.

Machine integers: Rust u64 values are modelled as Nat together with
reduction modulo 2^64 exactly where the Rust code can wrap (the
`message.to - 1` subtraction and the `rank + 1` offset).
-/

namespace Torchft

/-- 2^64, the modulus of Rust u64 arithmetic. -/
def U64_MOD : Nat := 2 ^ 64

/-- NodeInfo protobuf message: externally visible rank and network address. -/
structure NodeInfo where
  rank : Nat
  address : String
  deriving DecidableEq, Repr

/-- The peer registry: `HashMap<u64, NodeInfo>` modelled as an association
list. Insert replaces an existing binding for the key (HashMap semantics). -/
abbrev Registry := List (Nat × NodeInfo)

/-- `HashMap::contains_key`. -/
def Registry.containsKey : Registry → Nat → Bool
  | [], _ => false
  | p :: rest, k => p.1 == k || Registry.containsKey rest k

/-- `HashMap::get` / indexing: the value bound to key `k`, if any. -/
def Registry.lookup : Registry → Nat → Option NodeInfo
  | [], _ => none
  | p :: rest, k => if p.1 == k then some p.2 else Registry.lookup rest k

/-- `HashMap::insert`: replace the binding for `k` when present, otherwise
add one. -/
def Registry.insertPeer : Registry → Nat → NodeInfo → Registry
  | [], k, v => [(k, v)]
  | p :: rest, k, v =>
    if p.1 == k then (k, v) :: rest else p :: Registry.insertPeer rest k v

/-- `HashMap::values`. -/
def Registry.values (r : Registry) : List NodeInfo :=
  r.map Prod.snd

/-- The keys of the registry. -/
def Registry.keys (r : Registry) : List Nat :=
  r.map Prod.fst

/-- `Coordinator` struct: rank, advertised local address, and the peer
registry. The `RawNode<MemStorage>` field is external library state; the
parts of it the coordinator observes are passed explicitly to the
operations below. -/
structure Coordinator where
  rank : Nat
  local_addr : String
  peers : Registry
  deriving DecidableEq, Repr

/-- `Coordinator::node`: the local node's NodeInfo, synthesized on demand
from local state (never stored in the registry by this function). -/
def Coordinator.node (co : Coordinator) : NodeInfo :=
  { rank := co.rank, address := co.local_addr }

/-- The raft `Config` built in `Coordinator::new`; only the participant id
is set by the coordinator. -/
structure RaftConfig where
  id : Nat
  deriving DecidableEq, Repr

/-- `Coordinator::new` builds `Config { id: rank + 1, .. }`; `rank + 1` is
computed in u64 arithmetic. -/
def Coordinator.newConfig (rank : Nat) : RaftConfig :=
  { id := (rank + 1) % U64_MOD }

/-- `Coordinator::new` synthesizes AddNode conf changes for ids
`1..world_size + 1` (i.e. `1..=world_size`). -/
def Coordinator.confChangeIds (world_size : Nat) : List Nat :=
  List.range' 1 world_size

/-- `Coordinator::handle_messages` derives the destination rank as
`message.to - 1` in u64 arithmetic (wrapping subtraction). -/
def dispatchRank (t : Nat) : Nat :=
  (t + (U64_MOD - 1)) % U64_MOD

/-- A raft protocol message (`raft::eraftpb::Message`), modelled at the
interface boundary: the coordinator only reads its `to` field and
serializes it opaquely; `data` stands for the rest of the payload. -/
structure RaftMsg where
  «to» : Nat
  data : Nat
  deriving DecidableEq, Repr

/-- `Message::write_to_bytes`: opaque protobuf serialization, modelled at
the interface boundary as a total injective encoding. -/
def RaftMsg.write_to_bytes (m : RaftMsg) : List Nat :=
  [m.«to», m.data]

/-- A raft log entry, opaque to the coordinator. -/
structure Entry where
  data : Nat
  deriving DecidableEq, Repr

/-- A raft snapshot, opaque to the coordinator (`ready.snapshot()` is only
tested for emptiness and handed to the storage). -/
structure Snapshot where
  data : Nat
  deriving DecidableEq, Repr

/-- Raft hard state: term, vote, commit (the durable core persisted by
`set_hardstate`). -/
structure HardState where
  term : Nat
  vote : Nat
  commit : Nat
  deriving DecidableEq, Repr

/-- The `Ready` bundle handed to the coordinator by `RawNode::ready()`,
modelled at the interface boundary. An absent snapshot / hard state is
what the Rust code observes as `is_empty()` / `None`. -/
structure Ready where
  messages : List RaftMsg
  snapshot : Option Snapshot
  entries : List Entry
  hs : Option HardState
  persisted_messages : List RaftMsg
  deriving DecidableEq, Repr

/-- The `LightReady` bundle returned by `RawNode::advance`. The
coordinator only takes its messages (committed entries are ignored:
`handle_committed_entries` is commented out in the source). -/
structure LightReady where
  messages : List RaftMsg
  deriving DecidableEq, Repr

/-- The slice of `RawNode` state one tick observes: whether `has_ready()`
holds, the `Ready` bundle `ready()` returns, and the `LightReady` that
`advance` returns. Modelled at the interface boundary of the external
raft library. -/
structure RawNodeModel where
  hasReady : Bool
  ready : Ready
  lightReady : LightReady
  deriving DecidableEq, Repr

/-- `MemStorage`, modelled at its interface boundary: the coordinator uses
exactly `apply_snapshot`, `append`, and `set_hardstate`. -/
structure Storage where
  snap : Option Snapshot
  log : List Entry
  hardState : Option HardState
  deriving DecidableEq, Repr

/-- `MemStorage::apply_snapshot`. -/
def Storage.apply_snapshot (st : Storage) (s : Snapshot) : Storage :=
  { st with snap := some s }

/-- `MemStorage::append`. -/
def Storage.append (st : Storage) (es : List Entry) : Storage :=
  { st with log := st.log ++ es }

/-- `MemStorage::set_hardstate`. -/
def Storage.set_hardstate (st : Storage) (h : HardState) : Storage :=
  { st with hardState := some h }

/-- Observable side effects of one tick, in the order they happen:
persistence operations applied to the storage, and per-message transport
outcomes of `handle_messages`. -/
inductive Event where
  | applySnapshot (s : Snapshot)
  | appendEntries (es : List Entry)
  | setHardState (h : HardState)
  | netSkip (rank : Nat)
  | netSent (rank : Nat)
  | netFail (rank : Nat)
  deriving DecidableEq, Repr

/-- The stage of an event inside one tick: the source processes snapshot
installation, then entry append, then hard-state persistence, and only
then dispatches messages. -/
def Event.stage : Event → Nat
  | .applySnapshot _ => 0
  | .appendEntries _ => 1
  | .setHardState _ => 2
  | .netSkip _ => 3
  | .netSent _ => 3
  | .netFail _ => 3

/-- An event is a persistence side effect (storage mutation). -/
def Event.isPersist : Event → Bool
  | .applySnapshot _ => true
  | .appendEntries _ => true
  | .setHardState _ => true
  | _ => false

/-- An event is a network dispatch outcome for one message. -/
def Event.isNet : Event → Bool
  | .netSkip _ => true
  | .netSent _ => true
  | .netFail _ => true
  | _ => false

/-- The network, modelled at the tonic interface boundary: `connect addr`
is `Endpoint::connect` (with its 10s timeout), `rpc addr bytes` is the
unary `raft_message` call on the connected client. -/
structure Network where
  connect : String → Except String Unit
  rpc : String → List Nat → Except String Unit

/-- `Coordinator::get_client`: look the rank up in the peer registry
(error "rank not found" if absent), then connect to the peer's address.
The returned client is identified by its address. -/
def Coordinator.get_client (co : Coordinator) (net : Network) (rank : Nat) :
    Except String String :=
  match Registry.lookup co.peers rank with
  | none => Except.error "rank not found"
  | some ni =>
    match net.connect ni.address with
    | Except.error e => Except.error e
    | Except.ok _ => Except.ok ni.address

/-- `Coordinator::handle_messages`: for each message derive the dispatch
rank `to - 1`; a `get_client` failure (unknown peer or connect failure) is
logged and the message skipped; otherwise the serialized message is sent,
and an RPC failure propagates with `?`, abandoning the rest of the batch.
Returns the result together with the trace of per-message outcomes. -/
def Coordinator.handle_messages (co : Coordinator) (net : Network) :
    List RaftMsg → Except String Unit × List Event
  | [] => (Except.ok (), [])
  | m :: ms =>
    let rank := dispatchRank m.«to»
    match co.get_client net rank with
    | Except.error _ =>
      let r := co.handle_messages net ms
      (r.1, Event.netSkip rank :: r.2)
    | Except.ok addr =>
      match net.rpc addr m.write_to_bytes with
      | Except.error e => (Except.error e, [Event.netFail rank])
      | Except.ok _ =>
        let r := co.handle_messages net ms
        (r.1, Event.netSent rank :: r.2)

/-- The messages one tick collects before dispatch: the pre-persistence
batch (step 1), the persisted-messages batch (step 6), and the LightReady
messages from `advance` (step 7), in that order. -/
def RawNodeModel.tickMessages (node : RawNodeModel) : List RaftMsg :=
  node.ready.messages ++ node.ready.persisted_messages ++ node.lightReady.messages

/-- `Coordinator::tick`: under the node lock, collect the pre-persistence
messages (1), install a non-empty snapshot (2), append new entries (4),
persist a changed hard state (5), collect the persisted messages (6),
advance and collect the LightReady messages (7); after releasing the lock,
dispatch the collected messages via `handle_messages`. Returns the tick's
result (an error from `handle_messages` propagates with `?`), the updated
storage, and the ordered event trace. -/
def Coordinator.tick (co : Coordinator) (node : RawNodeModel) (stor : Storage)
    (net : Network) : Except String Unit × Storage × List Event :=
  if !node.hasReady then (Except.ok (), stor, [])
  else
    let ready := node.ready
    let messages1 : List RaftMsg :=
      if !ready.messages.isEmpty then ready.messages else []
    let stor2 : Storage :=
      match ready.snapshot with
      | some s => stor.apply_snapshot s
      | none => stor
    let evs2 : List Event :=
      match ready.snapshot with
      | some s => [Event.applySnapshot s]
      | none => []
    let stor4 : Storage :=
      if !ready.entries.isEmpty then stor2.append ready.entries else stor2
    let evs4 : List Event :=
      if !ready.entries.isEmpty then [Event.appendEntries ready.entries] else []
    let stor5 : Storage :=
      match ready.hs with
      | some h => stor4.set_hardstate h
      | none => stor4
    let evs5 : List Event :=
      match ready.hs with
      | some h => [Event.setHardState h]
      | none => []
    let messages6 : List RaftMsg :=
      if !ready.persisted_messages.isEmpty then
        messages1 ++ ready.persisted_messages
      else messages1
    let messages7 : List RaftMsg := messages6 ++ node.lightReady.messages
    let dispatched := co.handle_messages net messages7
    (dispatched.1, stor5, evs2 ++ evs4 ++ evs5 ++ dispatched.2)

/-- `Coordinator::run`: the perpetual tick loop, `self.tick().await?` every
100ms. Modelled over a finite schedule of per-tick RawNode observations;
the `?` exits the loop on the first tick error. -/
def Coordinator.run (co : Coordinator) (net : Network) (stor : Storage) :
    List RawNodeModel → Except String Storage
  | [] => Except.ok stor
  | node :: rest =>
    match co.tick node stor net with
    | (Except.error e, _, _) => Except.error e
    | (Except.ok _, stor', _) => co.run net stor' rest

/-- The body of the bootstrap `for peer in info_response.peers` loop, for
one returned peer: skip it when its rank equals the local rank; register
it when its rank is not yet in the registry, and push its address onto the
work-list unless it equals the address just queried. -/
def Coordinator.processPeer (selfRank : Nat) (queried : String) (peers : Registry)
    (addresses : List String) (peer : NodeInfo) : Registry × List String :=
  if peer.rank == selfRank then (peers, addresses)
  else if Registry.containsKey peers peer.rank then (peers, addresses)
  else
    (Registry.insertPeer peers peer.rank peer,
      if queried != peer.address then addresses ++ [peer.address] else addresses)

/-- The whole `for peer in info_response.peers` loop. -/
def Coordinator.processPeers (selfRank : Nat) (queried : String) :
    List NodeInfo → Registry → List String → Registry × List String
  | [], peers, addresses => (peers, addresses)
  | p :: rest, peers, addresses =>
    let step := Coordinator.processPeer selfRank queried peers addresses p
    Coordinator.processPeers selfRank queried rest step.1 step.2

/-- `Coordinator::bootstrap`'s while loop, with explicit fuel (`none` means
the fuel ran out before the loop exited). The work-list is a Vec used as a
stack: `pop` removes the last element, pushes append at the end. `resp a`
models connecting to `a` and the `info` exchange: `none` is a connection
or RPC failure, which propagates with `?` and aborts bootstrap; `some l`
is the responder's peer list. Empty addresses are skipped. -/
def Coordinator.bootstrapLoop (selfRank : Nat) (resp : String → Option (List NodeInfo)) :
    Nat → Registry → List String → Option (Except String Registry)
  | 0, _, _ => none
  | fuel + 1, peers, addresses =>
    match addresses.getLast? with
    | none => some (Except.ok peers)
    | some addr =>
      let rest := addresses.dropLast
      if addr = "" then Coordinator.bootstrapLoop selfRank resp fuel peers rest
      else
        match resp addr with
        | none => some (Except.error "connect failed")
        | some rsp =>
          let step := Coordinator.processPeers selfRank addr rsp peers rest
          Coordinator.bootstrapLoop selfRank resp fuel step.1 step.2

/-- tonic `Status`: the handlers only ever build internal-error statuses. -/
inductive Status where
  | internal (msg : String)
  deriving DecidableEq, Repr

/-- `RaftMessageRequest`: opaque serialized message bytes. -/
structure RaftMessageRequest where
  message : List Nat
  deriving DecidableEq, Repr

/-- `RaftMessageResponse`: empty ack. -/
structure RaftMessageResponse where
  deriving DecidableEq, Repr

/-- `InfoRequest`: protobuf optional requester field. -/
structure InfoRequest where
  requester : Option NodeInfo
  deriving DecidableEq, Repr

/-- `InfoResponse`: the peer list returned to the announcer. -/
structure InfoResponse where
  peers : List NodeInfo
  deriving DecidableEq, Repr

/-- `CoordinatorService::raft_message`: parse the payload (a parse failure
maps to an internal-error status, leaving the node state untouched), then
`step` the node (a step failure maps to an internal-error status). `parse`
is `Message::parse_from_bytes` and `step` is `RawNode::step`, both
external, modelled at their interface boundary: per the driver contract a
failing `step` must not corrupt in-memory state, so it is a function
returning `Except` over an abstract node state `σ`. Returns the node state
after the call and the RPC result. -/
def CoordinatorService.raft_message {σ : Type}
    (parse : List Nat → Except String RaftMsg)
    (step : σ → RaftMsg → Except String σ)
    (st : σ) (req : RaftMessageRequest) : σ × Except Status RaftMessageResponse :=
  match parse req.message with
  | Except.error e =>
    (st, Except.error (Status.internal ("Failed to parse message: " ++ e)))
  | Except.ok msg =>
    match step st msg with
    | Except.error e =>
      (st, Except.error (Status.internal ("Failed to step state machine: " ++ e)))
    | Except.ok st' => (st', Except.ok {})

/-- `CoordinatorService::info`: `request.into_inner().requester.unwrap()`
panics when the optional requester is absent (modelled as `none`);
otherwise the requester is unconditionally upserted into the registry and
the response is the registry's values plus the local node's synthesized
NodeInfo. Returns the updated coordinator and the response. -/
def CoordinatorService.info (co : Coordinator) (req : InfoRequest) :
    Option (Coordinator × InfoResponse) :=
  match req.requester with
  | none => none
  | some requester =>
    let peers' := Registry.insertPeer co.peers requester.rank requester
    some ({ co with peers := peers' },
      { peers := Registry.values peers' ++ [co.node] })

/-! ## Registry lemmas -/

theorem Registry.containsKey_iff_mem_keys (r : Registry) (k : Nat) :
    Registry.containsKey r k = true ↔ k ∈ Registry.keys r := by
  induction r with
  | nil => simp [Registry.containsKey, Registry.keys]
  | cons p rest ih =>
    simp only [Registry.keys, List.map_cons] at ih ⊢
    simp only [Registry.containsKey, List.mem_cons, Bool.or_eq_true, beq_iff_eq, ih]
    constructor
    · rintro (h | h)
      · exact Or.inl h.symm
      · exact Or.inr h
    · rintro (h | h)
      · exact Or.inl h.symm
      · exact Or.inr h

theorem Registry.lookup_eq_none_of_not_contains (r : Registry) (k : Nat)
    (h : Registry.containsKey r k = false) : Registry.lookup r k = none := by
  induction r with
  | nil => rfl
  | cons p rest ih =>
    simp only [Registry.containsKey, Bool.or_eq_false_iff] at h
    simp [Registry.lookup, h.1, ih h.2]

theorem Registry.lookup_insertPeer_self (r : Registry) (k : Nat) (v : NodeInfo) :
    Registry.lookup (Registry.insertPeer r k v) k = some v := by
  induction r with
  | nil => simp [Registry.insertPeer, Registry.lookup]
  | cons p rest ih =>
    cases h : p.1 == k
    · simp [Registry.insertPeer, h, Registry.lookup, ih]
    · simp [Registry.insertPeer, h, Registry.lookup]

theorem Registry.lookup_insertPeer_ne (r : Registry) (k k' : Nat) (v : NodeInfo)
    (h : k' ≠ k) : Registry.lookup (Registry.insertPeer r k v) k' = Registry.lookup r k' := by
  have hkk' : (k == k') = false := beq_eq_false_iff_ne.mpr (Ne.symm h)
  induction r with
  | nil => simp [Registry.insertPeer, Registry.lookup, hkk']
  | cons p rest ih =>
    cases hp : p.1 == k
    · simp [Registry.insertPeer, hp, Registry.lookup, ih]
    · have hpk : p.1 = k := by simpa using hp
      simp [Registry.insertPeer, hp, Registry.lookup, hpk, hkk']

theorem Registry.containsKey_insertPeer (r : Registry) (k k' : Nat) (v : NodeInfo) :
    Registry.containsKey (Registry.insertPeer r k v) k' = true ↔
      k' = k ∨ Registry.containsKey r k' = true := by
  induction r with
  | nil =>
    simp [Registry.insertPeer, Registry.containsKey]
    exact eq_comm
  | cons p rest ih =>
    cases hp : p.1 == k
    · simp only [Registry.insertPeer, hp, Bool.false_eq_true, if_false,
        Registry.containsKey, Bool.or_eq_true, ih]
      tauto
    · have hpk : p.1 = k := by simpa using hp
      simp only [Registry.insertPeer, hp, if_true, Registry.containsKey, hpk,
        Bool.or_eq_true, beq_iff_eq]
      constructor
      · rintro (h | h)
        · exact Or.inl h.symm
        · exact Or.inr (Or.inr h)
      · rintro (h | h | h)
        · exact Or.inl h.symm
        · exact Or.inl h
        · exact Or.inr h

theorem Registry.keys_insertPeer_of_not_contains (r : Registry) (k : Nat) (v : NodeInfo)
    (h : Registry.containsKey r k = false) :
    Registry.keys (Registry.insertPeer r k v) = Registry.keys r ++ [k] := by
  induction r with
  | nil => rfl
  | cons p rest ih =>
    simp only [Registry.containsKey, Bool.or_eq_false_iff] at h
    have ih' := ih h.2
    simp only [Registry.keys, List.map_cons] at ih' ⊢
    simp [Registry.insertPeer, h.1, ih']

/-! ## Claim theorems -/

/-- C3: for every rank in `[0, world_size)` the participant id built by
`Coordinator::new` is exactly `rank + 1`, and for every outbound message
the dispatch destination rank derived in `handle_messages` from the
message's `to` field (a u64 with `1 ≤ to`) is exactly `to - 1`. -/
theorem id_offset_invariant (rank world_size t : Nat)
    (hrank : rank < world_size) (hws : world_size < U64_MOD)
    (ht1 : 1 ≤ t) (ht2 : t < U64_MOD) :
    (Coordinator.newConfig rank).id = rank + 1 ∧ dispatchRank t = t - 1 := by
  have hM : U64_MOD = 18446744073709551616 := by norm_num [U64_MOD]
  constructor
  · show (rank + 1) % U64_MOD = rank + 1
    rw [hM] at hws ⊢
    omega
  · show (t + (U64_MOD - 1)) % U64_MOD = t - 1
    rw [hM] at ht2 ⊢
    omega

/-- Witness for C3 at rank 0, world size 3, message `to` field 5. -/
theorem id_offset_invariant_witness :
    (Coordinator.newConfig 0).id = 0 + 1 ∧ dispatchRank 5 = 5 - 1 :=
  id_offset_invariant 0 3 5 (by norm_num) (by norm_num [U64_MOD])
    (by norm_num) (by norm_num [U64_MOD])

/-- C10: the Info handler dereferences the optional requester with
`unwrap`, so it panics (modelled as `none`) on a request whose requester
field is absent, and it is total exactly under the precondition that the
requester field is present. -/
theorem info_requires_requester (co : Coordinator) :
    CoordinatorService.info co { requester := none } = none ∧
      ∀ req : InfoRequest, req.requester.isSome = true →
        (CoordinatorService.info co req).isSome = true := by
  constructor
  · rfl
  · intro req h
    rcases req with ⟨_ | r⟩
    · simp at h
    · simp [CoordinatorService.info]

/-- Witness for C10: the handler panics on an absent requester and
answers a present one. -/
theorem info_requires_requester_witness :
    CoordinatorService.info ⟨0, "a", []⟩ { requester := none } = none ∧
      (CoordinatorService.info ⟨0, "a", []⟩ { requester := some ⟨1, "b"⟩ }).isSome = true :=
  ⟨(info_requires_requester ⟨0, "a", []⟩).1,
    (info_requires_requester ⟨0, "a", []⟩).2 { requester := some ⟨1, "b"⟩ } (by rfl)⟩

/-- C9: the Info handler unconditionally upserts the announcing peer into
the registry keyed by its rank (the announcement wins for that rank, all
other ranks keep their bindings), and the response is the full registry
contents plus the local node's own NodeInfo as one list. -/
theorem info_upsert_and_response (co : Coordinator) (req : InfoRequest) (r : NodeInfo)
    (h : req.requester = some r) :
    (CoordinatorService.info co req).isSome = true ∧
      ∀ co' resp, CoordinatorService.info co req = some (co', resp) →
        Registry.lookup co'.peers r.rank = some r ∧
        (∀ k, k ≠ r.rank → Registry.lookup co'.peers k = Registry.lookup co.peers k) ∧
        co'.rank = co.rank ∧ co'.local_addr = co.local_addr ∧
        resp.peers = Registry.values co'.peers ++ [co.node] := by
  constructor
  · simp [CoordinatorService.info, h]
  · intro co' resp hinfo
    simp only [CoordinatorService.info, h, Option.some.injEq, Prod.mk.injEq] at hinfo
    obtain ⟨hco, hresp⟩ := hinfo
    subst hco
    subst hresp
    exact ⟨Registry.lookup_insertPeer_self _ _ _,
      fun k hk => Registry.lookup_insertPeer_ne _ _ _ _ hk, rfl, rfl, rfl⟩

/-- Witness for C9: announcing rank 1 to a node of rank 0 with an empty
registry registers the announcer (and the handler returns a response). -/
theorem info_upsert_and_response_witness :
    (CoordinatorService.info ⟨0, "a", []⟩ { requester := some ⟨1, "b"⟩ }).isSome = true ∧
      Registry.lookup (Coordinator.mk 0 "a" [(1, ⟨1, "b"⟩)]).peers 1 = some ⟨1, "b"⟩ :=
  ⟨(info_upsert_and_response ⟨0, "a", []⟩ { requester := some ⟨1, "b"⟩ } ⟨1, "b"⟩ rfl).1,
    ((info_upsert_and_response ⟨0, "a", []⟩ { requester := some ⟨1, "b"⟩ } ⟨1, "b"⟩ rfl).2
      ⟨0, "a", [(1, ⟨1, "b"⟩)]⟩ ⟨[⟨1, "b"⟩, ⟨0, "a"⟩]⟩ rfl).1⟩

/-- C8: the RaftMessage handler surfaces a parse failure of the payload
bytes as an internal-error status and a step rejection as an internal-error
status, and in both error cases the node state passed in is returned
unchanged (the handler is a total function: no crash). -/
theorem raft_message_error_handling {σ : Type}
    (parse : List Nat → Except String RaftMsg)
    (step : σ → RaftMsg → Except String σ)
    (st : σ) (req : RaftMessageRequest) :
    (∀ e, parse req.message = Except.error e →
      CoordinatorService.raft_message parse step st req =
        (st, Except.error (Status.internal ("Failed to parse message: " ++ e)))) ∧
    (∀ m e, parse req.message = Except.ok m → step st m = Except.error e →
      CoordinatorService.raft_message parse step st req =
        (st, Except.error (Status.internal ("Failed to step state machine: " ++ e)))) := by
  constructor
  · intro e he
    simp [CoordinatorService.raft_message, he]
  · intro m e hm hstep
    simp [CoordinatorService.raft_message, hm, hstep]

/-- Witness for C8: a rejecting parse and a rejecting step, each on node
state 7, both answer an internal error and keep the state at 7. -/
theorem raft_message_error_handling_witness :
    @CoordinatorService.raft_message Nat (fun _ => Except.error "bad")
        (fun s _ => Except.ok s) 7 ⟨[]⟩ =
      (7, Except.error (Status.internal ("Failed to parse message: " ++ "bad"))) ∧
    @CoordinatorService.raft_message Nat (fun _ => Except.ok ⟨1, 0⟩)
        (fun _ _ => Except.error "rejected") 7 ⟨[]⟩ =
      (7, Except.error (Status.internal ("Failed to step state machine: " ++ "rejected"))) :=
  ⟨(@raft_message_error_handling Nat (fun _ => Except.error "bad")
      (fun s _ => Except.ok s) 7 ⟨[]⟩).1 "bad" rfl,
    (@raft_message_error_handling Nat (fun _ => Except.ok ⟨1, 0⟩)
      (fun _ _ => Except.error "rejected") 7 ⟨[]⟩).2 ⟨1, 0⟩ "rejected" rfl rfl⟩

/-- C4: a batch message whose dispatch rank is absent from the peer
registry is skipped (a warning event), the remaining messages are still
processed exactly as they would be on their own, and the missing peer
changes nothing about the result `handle_messages` returns. -/
theorem unknown_peer_skipped_nonfatal (co : Coordinator) (net : Network)
    (m : RaftMsg) (ms : List RaftMsg)
    (h : Registry.containsKey co.peers (dispatchRank m.«to») = false) :
    co.handle_messages net (m :: ms) =
      ((co.handle_messages net ms).1,
        Event.netSkip (dispatchRank m.«to») :: (co.handle_messages net ms).2) := by
  have hl : Registry.lookup co.peers (dispatchRank m.«to») = none :=
    Registry.lookup_eq_none_of_not_contains _ _ h
  simp [Coordinator.handle_messages, Coordinator.get_client, hl]

/-- Witness for C4: with an empty registry, a single message is skipped
and the empty remainder is processed normally. -/
theorem unknown_peer_skipped_nonfatal_witness :
    Coordinator.handle_messages ⟨0, "a", []⟩
        ⟨fun _ => Except.ok (), fun _ _ => Except.ok ()⟩ [⟨1, 0⟩] =
      ((Coordinator.handle_messages ⟨0, "a", []⟩
          ⟨fun _ => Except.ok (), fun _ _ => Except.ok ()⟩ []).1,
        Event.netSkip (dispatchRank 1) ::
          (Coordinator.handle_messages ⟨0, "a", []⟩
            ⟨fun _ => Except.ok (), fun _ _ => Except.ok ()⟩ []).2) :=
  unknown_peer_skipped_nonfatal ⟨0, "a", []⟩
    ⟨fun _ => Except.ok (), fun _ _ => Except.ok ()⟩ ⟨1, 0⟩ [] (by rfl)

/-- C5: the bootstrap loop skips empty seed addresses, and for each peer a
probed address returns: the peer ends up registered iff its rank differs
from the local rank or was registered already (so a new registration
happens iff the rank differs from the local rank and was not yet
registered); the work-list gains the peer's address iff the peer is newly
registered and its address differs from the address just queried; a peer
that is not newly registered changes nothing. -/
theorem bootstrap_registration_conditions
    (selfRank : Nat) (resp : String → Option (List NodeInfo)) (fuel : Nat)
    (peers : Registry) (addresses : List String) (queried : String) (p : NodeInfo) :
    Coordinator.bootstrapLoop selfRank resp (fuel + 1) peers (addresses ++ [""]) =
      Coordinator.bootstrapLoop selfRank resp fuel peers addresses ∧
    (Registry.containsKey
        (Coordinator.processPeer selfRank queried peers addresses p).1 p.rank = true ↔
      (p.rank ≠ selfRank ∨ Registry.containsKey peers p.rank = true)) ∧
    ((Coordinator.processPeer selfRank queried peers addresses p).2 =
      if p.rank ≠ selfRank ∧ Registry.containsKey peers p.rank = false ∧
          p.address ≠ queried
      then addresses ++ [p.address] else addresses) ∧
    ((p.rank = selfRank ∨ Registry.containsKey peers p.rank = true) →
      Coordinator.processPeer selfRank queried peers addresses p = (peers, addresses)) := by
  refine ⟨?_, ?_, ?_, ?_⟩
  · simp [Coordinator.bootstrapLoop, List.getLast?_concat, List.dropLast_concat]
  · by_cases h1 : p.rank = selfRank
    · simp [Coordinator.processPeer, h1]
    · have h1b : (p.rank == selfRank) = false := beq_eq_false_iff_ne.mpr h1
      cases h2 : Registry.containsKey peers p.rank
      · simp [Coordinator.processPeer, h1b, h2, Registry.containsKey_insertPeer, h1]
      · simp [Coordinator.processPeer, h1b, h2, h1]
  · by_cases h1 : p.rank = selfRank
    · simp [Coordinator.processPeer, h1]
    · have h1b : (p.rank == selfRank) = false := beq_eq_false_iff_ne.mpr h1
      cases h2 : Registry.containsKey peers p.rank
      · by_cases h3 : queried = p.address
        · simp [Coordinator.processPeer, h1b, h2, h3]
        · simp [Coordinator.processPeer, h1b, h2, h1, bne_iff_ne.mpr h3, Ne.symm h3]
      · simp [Coordinator.processPeer, h1b, h2]
  · rintro (h1 | h2)
    · simp [Coordinator.processPeer, h1]
    · by_cases h1 : p.rank = selfRank
      · simp [Coordinator.processPeer, h1]
      · simp [Coordinator.processPeer, beq_eq_false_iff_ne.mpr h1, h2]

/-- Witness for C5: a peer announcing the local rank is ignored. -/
theorem bootstrap_registration_conditions_witness :
    Coordinator.processPeer 0 "q" [] [] ⟨0, "x"⟩ = ([], []) :=
  (bootstrap_registration_conditions 0 (fun _ => some []) 0 [] [] "q" ⟨0, "x"⟩).2.2.2
    (Or.inl rfl)

/-- One bootstrap peer step keeps the local rank out of the registry: the
only insertion is guarded by `peer.rank == self.rank`. -/
theorem Coordinator.processPeer_preserves_absent (selfRank : Nat) (queried : String)
    (peers : Registry) (addrs : List String) (p : NodeInfo)
    (h : Registry.containsKey peers selfRank = false) :
    Registry.containsKey
      (Coordinator.processPeer selfRank queried peers addrs p).1 selfRank = false := by
  by_cases h1 : p.rank = selfRank
  · simpa [Coordinator.processPeer, h1] using h
  · cases h2 : Registry.containsKey peers p.rank
    · simp only [Coordinator.processPeer, beq_eq_false_iff_ne.mpr h1, Bool.false_eq_true,
        if_false, h2]
      by_contra hc
      rw [Bool.not_eq_false] at hc
      rcases (Registry.containsKey_insertPeer peers p.rank selfRank p).mp hc with he | he
      · exact h1 he.symm
      · rw [h] at he
        exact absurd he (by simp)
    · simpa [Coordinator.processPeer, beq_eq_false_iff_ne.mpr h1, h2] using h

/-- The whole bootstrap peer loop keeps the local rank out of the registry. -/
theorem Coordinator.processPeers_preserves_absent (selfRank : Nat) (queried : String) :
    ∀ (l : List NodeInfo) (peers : Registry) (addrs : List String),
      Registry.containsKey peers selfRank = false →
      Registry.containsKey
        (Coordinator.processPeers selfRank queried l peers addrs).1 selfRank = false
  | [], _, _, h => h
  | p :: rest, peers, addrs, h =>
    Coordinator.processPeers_preserves_absent selfRank queried rest _ _
      (Coordinator.processPeer_preserves_absent selfRank queried peers addrs p h)

/-- The bootstrap loop keeps the local rank out of the registry. -/
theorem Coordinator.bootstrapLoop_preserves_absent (selfRank : Nat)
    (resp : String → Option (List NodeInfo)) (fuel : Nat) :
    ∀ (peers : Registry) (addrs : List String) (res : Registry),
      Registry.containsKey peers selfRank = false →
      Coordinator.bootstrapLoop selfRank resp fuel peers addrs = some (Except.ok res) →
      Registry.containsKey res selfRank = false := by
  induction fuel with
  | zero =>
    intro peers addrs res h hloop
    simp [Coordinator.bootstrapLoop] at hloop
  | succ n ih =>
    intro peers addrs res h hloop
    rw [Coordinator.bootstrapLoop] at hloop
    cases hlast : addrs.getLast? with
    | none =>
      rw [hlast] at hloop
      simp only [Option.some.injEq, Except.ok.injEq] at hloop
      rw [← hloop]
      exact h
    | some addr =>
      rw [hlast] at hloop
      dsimp only at hloop
      by_cases haddr : addr = ""
      · rw [if_pos haddr] at hloop
        exact ih peers addrs.dropLast res h hloop
      · rw [if_neg haddr] at hloop
        cases hresp : resp addr with
        | none =>
          rw [hresp] at hloop
          simp at hloop
        | some rsp =>
          rw [hresp] at hloop
          exact ih _ _ res
            (Coordinator.processPeers_preserves_absent selfRank addr rsp peers
              addrs.dropLast h) hloop

/-- C7 counterexample: starting from a coordinator of rank 0 whose registry
satisfies the invariant (it is empty), one inbound Info announcement whose
requester carries rank 0 makes the handler insert an entry for the local
rank, so the insertion does not preserve the claimed invariant. -/
theorem info_inserts_local_rank :
    (CoordinatorService.info ⟨0, "a", []⟩ { requester := some ⟨0, "evil"⟩ }).map
      (fun pr => Registry.containsKey pr.1.peers pr.1.rank) = some true := by
  rfl

/-- C7 amended: bootstrap peer registration preserves the no-local-rank
invariant (peers carrying the local rank are skipped), the local NodeInfo
is synthesized from local state alone (the registry content is irrelevant
to it), but the Info handler upserts unconditionally and therefore
preserves the invariant only when the requester's rank differs from the
local rank. -/
theorem registry_excludes_local_rank_amended :
    (∀ (selfRank : Nat) (resp : String → Option (List NodeInfo)) (fuel : Nat)
        (peers : Registry) (addrs : List String) (res : Registry),
      Registry.containsKey peers selfRank = false →
      Coordinator.bootstrapLoop selfRank resp fuel peers addrs = some (Except.ok res) →
      Registry.containsKey res selfRank = false) ∧
    (∀ (co : Coordinator) (req : InfoRequest) (r : NodeInfo)
        (co' : Coordinator) (resp2 : InfoResponse),
      req.requester = some r → r.rank ≠ co.rank →
      Registry.containsKey co.peers co.rank = false →
      CoordinatorService.info co req = some (co', resp2) →
      Registry.containsKey co'.peers co'.rank = false) ∧
    (∀ (co : Coordinator) (ps : Registry),
      Coordinator.node { co with peers := ps } = Coordinator.node co) := by
  refine ⟨?_, ?_, fun co ps => rfl⟩
  · intro selfRank resp fuel peers addrs res h hloop
    exact Coordinator.bootstrapLoop_preserves_absent selfRank resp fuel peers addrs res h hloop
  · intro co req r co' resp2 hreq hne h hinfo
    simp only [CoordinatorService.info, hreq, Option.some.injEq, Prod.mk.injEq] at hinfo
    obtain ⟨hco, hresp⟩ := hinfo
    subst hco
    by_contra hc
    rw [Bool.not_eq_false] at hc
    rcases (Registry.containsKey_insertPeer co.peers r.rank co.rank r).mp hc with he | he
    · exact hne he.symm
    · rw [h] at he
      exact absurd he (by simp)

/-- Witness for the amended C7: a trivial bootstrap run and an info call by
a peer of a different rank both leave the local rank unregistered. -/
theorem registry_excludes_local_rank_amended_witness :
    Registry.containsKey ([] : Registry) 0 = false ∧
      Registry.containsKey (Coordinator.mk 0 "a" [(1, ⟨1, "b"⟩)]).peers
        (Coordinator.mk 0 "a" [(1, ⟨1, "b"⟩)]).rank = false :=
  ⟨registry_excludes_local_rank_amended.1 0 (fun _ => some []) 1 [] [] [] rfl rfl,
    registry_excludes_local_rank_amended.2.1 ⟨0, "a", []⟩ { requester := some ⟨1, "b"⟩ }
      ⟨1, "b"⟩ ⟨0, "a", [(1, ⟨1, "b"⟩)]⟩ ⟨[⟨1, "b"⟩, ⟨0, "a"⟩]⟩ rfl (by decide) rfl rfl⟩

/-- `if` on a batch emptiness test collapses: appending the messages of a
possibly-empty ready batch always appends exactly that batch. -/
theorem append_guard_collapse (acc l : List RaftMsg) :
    (if !l.isEmpty then acc ++ l else acc) = acc ++ l := by
  cases h : l.isEmpty
  · simp
  · simp [List.isEmpty_iff.mp h]

/-- C2 counterexample: two messages to registered, connectable peers; the
RPC call for the first fails, `handle_messages` stops with that error (the
second message is never attempted: its outcome is absent from the trace)
and the error propagates out of the tick, terminating the run loop. -/
theorem handle_messages_rpc_failure_halts_batch :
    Coordinator.handle_messages ⟨0, "a", [(0, ⟨0, "p0"⟩), (1, ⟨1, "p1"⟩)]⟩
        ⟨fun _ => Except.ok (), fun _ _ => Except.error "rpc failed"⟩ [⟨1, 7⟩, ⟨2, 8⟩] =
      (Except.error "rpc failed", [Event.netFail 0]) ∧
    Coordinator.run ⟨0, "a", [(0, ⟨0, "p0"⟩), (1, ⟨1, "p1"⟩)]⟩
        ⟨fun _ => Except.ok (), fun _ _ => Except.error "rpc failed"⟩ ⟨none, [], none⟩
        [⟨true, ⟨[⟨1, 7⟩, ⟨2, 8⟩], none, [], none, []⟩, ⟨[]⟩⟩] =
      Except.error "rpc failed" := by
  constructor
  · rfl
  · rfl

/-- C2 amended: a failure to obtain a client for a message (unknown rank,
or a timed-out or refused connection) affects only that message: it is
skipped and the rest of the batch is processed exactly as it would be on
its own. An RPC-level failure of the unary call, however, aborts the
remaining messages of the batch and propagates as the tick's error, which
terminates the tick loop. -/
theorem handle_messages_error_locality
    (co : Coordinator) (net : Network) (m : RaftMsg) (ms : List RaftMsg)
    (node : RawNodeModel) (stor : Storage) (rest : List RawNodeModel) :
    (∀ e, co.get_client net (dispatchRank m.«to») = Except.error e →
      co.handle_messages net (m :: ms) =
        ((co.handle_messages net ms).1,
          Event.netSkip (dispatchRank m.«to») :: (co.handle_messages net ms).2)) ∧
    (∀ addr e, co.get_client net (dispatchRank m.«to») = Except.ok addr →
      net.rpc addr m.write_to_bytes = Except.error e →
      co.handle_messages net (m :: ms) =
        (Except.error e, [Event.netFail (dispatchRank m.«to»)])) ∧
    (node.hasReady = true →
      (co.tick node stor net).1 = (co.handle_messages net node.tickMessages).1) ∧
    (∀ e, (co.tick node stor net).1 = Except.error e →
      co.run net stor (node :: rest) = Except.error e) := by
  refine ⟨?_, ?_, ?_, ?_⟩
  · intro e he
    simp [Coordinator.handle_messages, he]
  · intro addr e hc hr
    simp [Coordinator.handle_messages, hc, hr]
  · intro h
    simp only [Coordinator.tick, h, Bool.not_true, Bool.false_eq_true, if_false,
      RawNodeModel.tickMessages]
    rw [append_guard_collapse]
    congr 2
    cases hm : node.ready.messages.isEmpty
    · simp
    · simp [List.isEmpty_iff.mp hm]
  · intro e htick
    rcases hres : co.tick node stor net with ⟨r, stor', evs⟩
    rw [hres] at htick
    simp only at htick
    subst htick
    simp [Coordinator.run, hres]

/-- Witness for the amended C2: with an empty registry a message is
skipped and the batch result is that of the rest; with a registered peer
and a failing RPC the batch aborts with the error; the tick result is the
dispatch result; an erroring tick terminates the run loop. -/
theorem handle_messages_error_locality_witness :
    Coordinator.handle_messages ⟨0, "a", []⟩
        ⟨fun _ => Except.ok (), fun _ _ => Except.ok ()⟩ [⟨2, 9⟩] =
      ((Coordinator.handle_messages ⟨0, "a", []⟩
          ⟨fun _ => Except.ok (), fun _ _ => Except.ok ()⟩ []).1,
        Event.netSkip (dispatchRank 2) ::
          (Coordinator.handle_messages ⟨0, "a", []⟩
            ⟨fun _ => Except.ok (), fun _ _ => Except.ok ()⟩ []).2) ∧
    Coordinator.handle_messages ⟨0, "a", [(0, ⟨0, "p0"⟩)]⟩
        ⟨fun _ => Except.ok (), fun _ _ => Except.error "boom"⟩ [⟨1, 7⟩] =
      (Except.error "boom", [Event.netFail (dispatchRank 1)]) ∧
    (Coordinator.tick ⟨0, "a", [(0, ⟨0, "p0"⟩)]⟩
        ⟨true, ⟨[⟨1, 7⟩], none, [], none, []⟩, ⟨[]⟩⟩ ⟨none, [], none⟩
        ⟨fun _ => Except.ok (), fun _ _ => Except.error "boom"⟩).1 =
      (Coordinator.handle_messages ⟨0, "a", [(0, ⟨0, "p0"⟩)]⟩
        ⟨fun _ => Except.ok (), fun _ _ => Except.error "boom"⟩
        (RawNodeModel.tickMessages ⟨true, ⟨[⟨1, 7⟩], none, [], none, []⟩, ⟨[]⟩⟩)).1 ∧
    Coordinator.run ⟨0, "a", [(0, ⟨0, "p0"⟩)]⟩
        ⟨fun _ => Except.ok (), fun _ _ => Except.error "boom"⟩ ⟨none, [], none⟩
        [⟨true, ⟨[⟨1, 7⟩], none, [], none, []⟩, ⟨[]⟩⟩] =
      Except.error "boom" :=
  ⟨(handle_messages_error_locality ⟨0, "a", []⟩
      ⟨fun _ => Except.ok (), fun _ _ => Except.ok ()⟩ ⟨2, 9⟩ []
      ⟨true, ⟨[], none, [], none, []⟩, ⟨[]⟩⟩ ⟨none, [], none⟩ []).1
      "rank not found" rfl,
    (handle_messages_error_locality ⟨0, "a", [(0, ⟨0, "p0"⟩)]⟩
      ⟨fun _ => Except.ok (), fun _ _ => Except.error "boom"⟩ ⟨1, 7⟩ []
      ⟨true, ⟨[], none, [], none, []⟩, ⟨[]⟩⟩ ⟨none, [], none⟩ []).2.1
      "p0" "boom" rfl rfl,
    (handle_messages_error_locality ⟨0, "a", [(0, ⟨0, "p0"⟩)]⟩
      ⟨fun _ => Except.ok (), fun _ _ => Except.error "boom"⟩ ⟨1, 7⟩ []
      ⟨true, ⟨[⟨1, 7⟩], none, [], none, []⟩, ⟨[]⟩⟩ ⟨none, [], none⟩ []).2.2.1 rfl,
    (handle_messages_error_locality ⟨0, "a", [(0, ⟨0, "p0"⟩)]⟩
      ⟨fun _ => Except.ok (), fun _ _ => Except.error "boom"⟩ ⟨1, 7⟩ []
      ⟨true, ⟨[⟨1, 7⟩], none, [], none, []⟩, ⟨[]⟩⟩ ⟨none, [], none⟩ []).2.2.2
      "boom" rfl⟩

/-- Every transport outcome recorded by `handle_messages` belongs to the
dispatch stage. -/
theorem Coordinator.handle_messages_stage (co : Coordinator) (net : Network) :
    ∀ (ms : List RaftMsg), ∀ e ∈ (co.handle_messages net ms).2, Event.stage e = 3 := by
  intro ms
  induction ms with
  | nil =>
    intro e he
    simp [Coordinator.handle_messages] at he
  | cons m rest ih =>
    intro e he
    simp only [Coordinator.handle_messages] at he
    cases hc : co.get_client net (dispatchRank m.«to») with
    | error err =>
      rw [hc] at he
      dsimp only at he
      rcases List.mem_cons.mp he with h | h
      · subst h; rfl
      · exact ih e h
    | ok addr =>
      rw [hc] at he
      dsimp only at he
      cases hr : net.rpc addr m.write_to_bytes with
      | error e2 =>
        rw [hr] at he
        dsimp only at he
        rcases List.mem_cons.mp he with h | h
        · subst h; rfl
        · simp at h
      | ok u =>
        rw [hr] at he
        dsimp only at he
        rcases List.mem_cons.mp he with h | h
        · subst h; rfl
        · exact ih e h

/-- Four stage-homogeneous blocks in stage order are stage-sorted. -/
theorem stage_blocks_pairwise (A1 A2 A3 N : List Event)
    (h1 : ∀ e ∈ A1, Event.stage e = 0) (h2 : ∀ e ∈ A2, Event.stage e = 1)
    (h3 : ∀ e ∈ A3, Event.stage e = 2) (hN : ∀ e ∈ N, Event.stage e = 3) :
    List.Pairwise (fun a b => Event.stage a ≤ Event.stage b) (A1 ++ A2 ++ A3 ++ N) := by
  have mono : ∀ (l : List Event) (c : Nat), (∀ e ∈ l, Event.stage e = c) →
      List.Pairwise (fun a b => Event.stage a ≤ Event.stage b) l := by
    intro l c hc
    exact List.pairwise_of_forall_mem_list fun a ha b hb => by rw [hc a ha, hc b hb]
  have hle3 : ∀ e : Event, Event.stage e ≤ 3 := by
    intro e
    cases e <;> simp [Event.stage]
  refine List.pairwise_append.mpr
    ⟨List.pairwise_append.mpr
      ⟨List.pairwise_append.mpr ⟨mono A1 0 h1, mono A2 1 h2, ?_⟩, mono A3 2 h3, ?_⟩,
      mono N 3 hN, ?_⟩
  · intro a ha b hb
    rw [h1 a ha]
    omega
  · intro a ha b hb
    rw [h3 b hb]
    rcases List.mem_append.mp ha with h | h
    · rw [h1 a h]; omega
    · rw [h2 a h]; omega
  · intro a ha b hb
    rw [hN b hb]
    exact hle3 a

/-- A persistence event sits in one of the first three stages. -/
theorem Event.stage_le_two_of_isPersist (e : Event) (h : e.isPersist = true) :
    e.stage ≤ 2 := by
  cases e <;> simp_all [Event.isPersist, Event.stage]

/-- A transport event sits in the dispatch stage. -/
theorem Event.stage_eq_three_of_isNet (e : Event) (h : e.isNet = true) :
    e.stage = 3 := by
  cases e <;> simp_all [Event.isNet, Event.stage]

/-- C1: the event trace of one tick is sorted by stage — snapshot
installation, then entry append, then hard-state persistence, then message
dispatch — and in particular every persistence side effect of the tick
precedes every dispatch of a collected message. -/
theorem tick_persistence_before_dispatch (co : Coordinator) (node : RawNodeModel)
    (stor : Storage) (net : Network) :
    List.Pairwise (fun a b => Event.stage a ≤ Event.stage b)
      (co.tick node stor net).2.2 ∧
    ∀ (i j : Nat) (hi : i < (co.tick node stor net).2.2.length)
      (hj : j < (co.tick node stor net).2.2.length),
      Event.isPersist ((co.tick node stor net).2.2.get ⟨i, hi⟩) = true →
      Event.isNet ((co.tick node stor net).2.2.get ⟨j, hj⟩) = true → i < j := by
  have hpair : List.Pairwise (fun a b => Event.stage a ≤ Event.stage b)
      (co.tick node stor net).2.2 := by
    cases hready : node.hasReady
    · simp [Coordinator.tick, hready]
    · simp only [Coordinator.tick, hready, Bool.not_true, Bool.false_eq_true, if_false]
      apply stage_blocks_pairwise
      · cases node.ready.snapshot <;> simp [Event.stage]
      · cases node.ready.entries.isEmpty <;> simp [Event.stage]
      · cases node.ready.hs <;> simp [Event.stage]
      · exact Coordinator.handle_messages_stage co net _
  refine ⟨hpair, ?_⟩
  intro i j hi hj hpi hnj
  by_contra hij
  push_neg at hij
  rcases Nat.lt_or_ge j i with hlt | hge
  · have hmono := List.pairwise_iff_get.mp hpair ⟨j, hj⟩ ⟨i, hi⟩ hlt
    have h3 := Event.stage_eq_three_of_isNet _ hnj
    have h2 := Event.stage_le_two_of_isPersist _ hpi
    rw [h3] at hmono
    omega
  · have hij' : i = j := Nat.le_antisymm hge hij
    subst hij'
    have : ((co.tick node stor net).2.2.get ⟨i, hi⟩) =
        ((co.tick node stor net).2.2.get ⟨i, hj⟩) := rfl
    rw [← this] at hnj
    have h3 := Event.stage_eq_three_of_isNet _ hnj
    have h2 := Event.stage_le_two_of_isPersist _ hpi
    omega

/-- Witness for C1: a tick that persists a hard state and then skips the
dispatch of one message has its persistence event strictly before the
transport event. -/
theorem tick_persistence_before_dispatch_witness :
    Event.isPersist ((Coordinator.tick ⟨0, "a", []⟩
        ⟨true, ⟨[⟨1, 5⟩], none, [], some ⟨1, 0, 1⟩, []⟩, ⟨[]⟩⟩ ⟨none, [], none⟩
        ⟨fun _ => Except.ok (), fun _ _ => Except.ok ()⟩).2.2.get ⟨0, by decide⟩) = true ∧
    Event.isNet ((Coordinator.tick ⟨0, "a", []⟩
        ⟨true, ⟨[⟨1, 5⟩], none, [], some ⟨1, 0, 1⟩, []⟩, ⟨[]⟩⟩ ⟨none, [], none⟩
        ⟨fun _ => Except.ok (), fun _ _ => Except.ok ()⟩).2.2.get ⟨1, by decide⟩) = true ∧
    (0 : Nat) < 1 :=
  ⟨rfl, rfl,
    (tick_persistence_before_dispatch ⟨0, "a", []⟩
      ⟨true, ⟨[⟨1, 5⟩], none, [], some ⟨1, 0, 1⟩, []⟩, ⟨[]⟩⟩ ⟨none, [], none⟩
      ⟨fun _ => Except.ok (), fun _ _ => Except.ok ()⟩).2 0 1 (by decide) (by decide)
      rfl rfl⟩

/-- The registry shape bootstrap maintains: pairwise-distinct keys (HashMap
semantics) that are Rust u64 values, hence below 2^64. -/
def goodReg (r : Registry) : Prop :=
  (Registry.keys r).Nodup ∧ ∀ k ∈ Registry.keys r, k < U64_MOD

/-- Termination measure of the bootstrap loop: pending work-list length
plus twice the number of u64 ranks not yet registered. -/
def bootMeasure (peers : Registry) (addresses : List String) : Nat :=
  addresses.length + 2 * (U64_MOD - (Registry.keys peers).length)

/-- A duplicate-free list of naturals below `N` has at most `N` elements. -/
theorem length_le_of_nodup_bounded (l : List Nat) (N : Nat) (hn : l.Nodup)
    (hb : ∀ x ∈ l, x < N) : l.length ≤ N := by
  classical
  have h1 : l.toFinset.card = l.length := List.toFinset_card_of_nodup hn
  have h2 : l.toFinset ⊆ Finset.range N := by
    intro x hx
    exact Finset.mem_range.mpr (hb x (List.mem_toFinset.mp hx))
  have h3 := Finset.card_le_card h2
  rw [h1, Finset.card_range] at h3
  exact h3

/-- One bootstrap peer step preserves the registry shape and never
increases the termination measure: a registration pushes at most one
address while retiring one previously-unregistered u64 rank forever. -/
theorem Coordinator.processPeer_good_measure (selfRank : Nat) (queried : String)
    (peers : Registry) (addrs : List String) (p : NodeInfo)
    (hg : goodReg peers) (hp : p.rank < U64_MOD) :
    goodReg (Coordinator.processPeer selfRank queried peers addrs p).1 ∧
      bootMeasure (Coordinator.processPeer selfRank queried peers addrs p).1
          (Coordinator.processPeer selfRank queried peers addrs p).2 ≤
        bootMeasure peers addrs := by
  by_cases h1 : p.rank = selfRank
  · simp only [Coordinator.processPeer, h1, beq_self_eq_true, if_true]
    exact ⟨hg, le_refl _⟩
  · cases h2 : Registry.containsKey peers p.rank with
    | true =>
      simp only [Coordinator.processPeer, beq_eq_false_iff_ne.mpr h1,
        Bool.false_eq_true, if_false, h2, if_true]
      exact ⟨hg, le_refl _⟩
    | false =>
      have hkeys := Registry.keys_insertPeer_of_not_contains peers p.rank p h2
      have hnotmem : p.rank ∉ Registry.keys peers := by
        intro hm
        have := (Registry.containsKey_iff_mem_keys peers p.rank).mpr hm
        rw [h2] at this
        exact absurd this (by simp)
      have hgood : goodReg (Registry.insertPeer peers p.rank p) := by
        constructor
        · rw [hkeys]
          simp [List.nodup_append, hg.1, hnotmem]
        · intro k hk
          rw [hkeys] at hk
          rcases List.mem_append.mp hk with h | h
          · exact hg.2 k h
          · simp only [List.mem_singleton] at h
            rw [h]
            exact hp
      have hlen : (Registry.keys (Registry.insertPeer peers p.rank p)).length =
          (Registry.keys peers).length + 1 := by
        rw [hkeys]
        simp
      have hbound : (Registry.keys peers).length + 1 ≤ U64_MOD := by
        have := length_le_of_nodup_bounded _ U64_MOD hgood.1 hgood.2
        rw [hlen] at this
        exact this
      simp only [Coordinator.processPeer, beq_eq_false_iff_ne.mpr h1,
        Bool.false_eq_true, if_false, h2]
      refine ⟨hgood, ?_⟩
      have haddrlen : (if queried != p.address then addrs ++ [p.address] else addrs).length ≤
          addrs.length + 1 := by
        by_cases h3 : queried = p.address <;> simp [h3]
      unfold bootMeasure
      rw [hlen]
      omega

/-- The whole bootstrap peer loop preserves the registry shape and never
increases the termination measure. -/
theorem Coordinator.processPeers_good_measure (selfRank : Nat) (queried : String) :
    ∀ (l : List NodeInfo) (peers : Registry) (addrs : List String),
      goodReg peers → (∀ p ∈ l, NodeInfo.rank p < U64_MOD) →
      goodReg (Coordinator.processPeers selfRank queried l peers addrs).1 ∧
        bootMeasure (Coordinator.processPeers selfRank queried l peers addrs).1
            (Coordinator.processPeers selfRank queried l peers addrs).2 ≤
          bootMeasure peers addrs := by
  intro l
  induction l with
  | nil =>
    intro peers addrs hg _
    exact ⟨hg, le_refl _⟩
  | cons p rest ih =>
    intro peers addrs hg hb
    have h1 := Coordinator.processPeer_good_measure selfRank queried peers addrs p hg
      (hb p (by simp))
    have h2 := ih (Coordinator.processPeer selfRank queried peers addrs p).1
      (Coordinator.processPeer selfRank queried peers addrs p).2 h1.1
      (fun q hq => hb q (by simp [hq]))
    simp only [Coordinator.processPeers]
    exact ⟨h2.1, le_trans h2.2 h1.2⟩

/-- C6: the bootstrap loop terminates for every finite seed list and every
model of peer responses whose peers carry u64 ranks: fuel one beyond the
measure (work-list length plus twice the count of unregistered u64 ranks)
always suffices, because each address is enqueued at most once per
registry miss and the registry only grows. -/
theorem bootstrap_terminates (selfRank : Nat) (resp : String → Option (List NodeInfo))
    (peers : Registry) (addresses : List String)
    (hresp : ∀ a l, resp a = some l → ∀ p ∈ l, NodeInfo.rank p < U64_MOD)
    (hg : goodReg peers) :
    (Coordinator.bootstrapLoop selfRank resp (bootMeasure peers addresses + 1)
        peers addresses).isSome = true := by
  suffices aux : ∀ (n : Nat) (peers : Registry) (addresses : List String),
      goodReg peers → bootMeasure peers addresses ≤ n →
      (Coordinator.bootstrapLoop selfRank resp (n + 1) peers addresses).isSome = true by
    exact aux _ peers addresses hg (le_refl _)
  intro n
  induction n with
  | zero =>
    intro peers addrs hg2 hm
    have hlen : addrs.length = 0 := by
      unfold bootMeasure at hm
      omega
    rw [List.length_eq_zero.mp hlen]
    rfl
  | succ n ih =>
    intro peers addrs hg2 hm
    rw [Coordinator.bootstrapLoop]
    cases hlast : addrs.getLast? with
    | none => rfl
    | some addr =>
      have hne : addrs ≠ [] := by
        intro h
        rw [h] at hlast
        exact absurd hlast (by simp)
      have hpos : 0 < addrs.length := List.length_pos.mpr hne
      have hmrest : bootMeasure peers addrs.dropLast ≤ n := by
        unfold bootMeasure at hm ⊢
        rw [List.length_dropLast]
        omega
      dsimp only
      by_cases haddr : addr = ""
      · rw [if_pos haddr]
        exact ih peers addrs.dropLast hg2 hmrest
      · rw [if_neg haddr]
        cases hresp2 : resp addr with
        | none => rfl
        | some rsp =>
          have hpm := Coordinator.processPeers_good_measure selfRank addr rsp peers
            addrs.dropLast hg2 (hresp addr rsp hresp2)
          exact ih _ _ hpm.1 (le_trans hpm.2 hmrest)

/-- Witness for C6: bootstrapping from one seed whose responder reports no
peers terminates within the measure bound. -/
theorem bootstrap_terminates_witness :
    (Coordinator.bootstrapLoop 0 (fun _ => some []) (bootMeasure [] ["x"] + 1)
        [] ["x"]).isSome = true :=
  bootstrap_terminates 0 (fun _ => some []) [] ["x"]
    (fun a l h p hp => by cases h; simp at hp)
    ⟨List.nodup_nil, by simp [Registry.keys]⟩

end Torchft
